import Mathlib

/-!
Verification of the media collage app (`src/app.py`) against its
natural-language specification.

The Python program is shallowly embedded below.  Pure string/byte
computations (`split`, `base64.b64decode`, `secure_filename`,
`is_image_file`, pagination arithmetic) become Lean functions over
`List Char` / `Nat`.  Effectful code (`upload_video`, `upload_photo`,
`delete_media`) is embedded as explicit state passing: the filesystem
is a finite association list, and the outcomes of external effects
(ffmpeg, PIL, disk writes) are supplied by an explicit environment
record, one field per effect.  Exceptions are modelled by the branch
structure of the Python `try/except` blocks.
-/

namespace MediaApp

/-- Raw bytes, as produced by `base64.b64decode`. -/
abbrev Bytes := List Nat

/-! ### Python `base64.b64decode`

Model of CPython `base64.b64decode` on an ASCII `str` argument
(`validate=False`, the default used in `app.py`): characters outside the
standard base64 alphabet are discarded, then the remaining characters are
decoded in groups of four, with canonical trailing `=` padding accepted.
A non-ASCII argument raises (the implicit `.encode('ascii')` fails), and
leftover characters that do not match the padding rules raise
`binascii.Error`. -/

/-- Value of a standard-alphabet base64 character, `none` otherwise. -/
def b64CharVal (c : Char) : Option Nat :=
  if 'A' ≤ c ∧ c ≤ 'Z' then some (c.toNat - 65)
  else if 'a' ≤ c ∧ c ≤ 'z' then some (c.toNat - 97 + 26)
  else if '0' ≤ c ∧ c ≤ '9' then some (c.toNat - 48 + 52)
  else if c = '+' then some 62
  else if c = '/' then some 63
  else none

def b64IsData (c : Char) : Bool := (b64CharVal c).isSome

def b64Val (c : Char) : Nat := (b64CharVal c).getD 0

/-- Decode a list of 6-bit values into bytes (quads give 3 bytes; a
final triple gives 2 bytes and a final pair gives 1 byte, as with
`xxx=` / `xx==` padding). -/
def b64Bytes : List Nat → List Nat
  | a :: b :: c :: d :: rest =>
      (a * 4 + b / 16) :: ((b % 16) * 16 + c / 4) :: ((c % 4) * 64 + d) :: b64Bytes rest
  | [a, b, c] => [a * 4 + b / 16, (b % 16) * 16 + c / 4]
  | [a, b] => [a * 4 + b / 16]
  | _ => []

instance {ε α : Type} [DecidableEq ε] [DecidableEq α] : DecidableEq (Except ε α) := fun x y =>
  match x, y with
  | .ok a, .ok b =>
      if h : a = b then .isTrue (by rw [h]) else .isFalse (by simp [h])
  | .error a, .error b =>
      if h : a = b then .isTrue (by rw [h]) else .isFalse (by simp [h])
  | .ok _, .error _ => .isFalse (by simp)
  | .error _, .ok _ => .isFalse (by simp)

inductive B64Err where
  | nonAscii
  | invalidPadding
deriving DecidableEq, Repr

/-- CPython `base64.b64decode` on a string (default lenient mode). -/
def pyB64Decode (s : List Char) : Except B64Err Bytes :=
  if s.all (fun c => c.toNat < 128) then
    let kept := s.filter (fun c => b64IsData c || c == '=')
    let dat := kept.takeWhile (fun c => c != '=')
    let pad := kept.dropWhile (fun c => c != '=')
    if pad.all (fun c => c == '=') &&
       ((pad.length == 0 && dat.length % 4 == 0) ||
        (pad.length == 1 && dat.length % 4 == 3) ||
        (pad.length == 2 && dat.length % 4 == 2)) then
      .ok (b64Bytes (dat.map b64Val))
    else
      .error .invalidPadding
  else
    .error .nonAscii

/-! ### Python `str.split` -/

/-- Python `str.split(sep)` for a one-character separator, over the
character list: `splitOnPred p l` cuts `l` at every character satisfying
`p`, keeping empty pieces (so the result is always nonempty). -/
def splitOnPred (p : Char → Bool) : List Char → List (List Char)
  | [] => [[]]
  | c :: rest =>
      if p c then [] :: splitOnPred p rest
      else
        match splitOnPred p rest with
        | s :: ss => (c :: s) :: ss
        | [] => [[c]]

/-- Python `str.split(',')` as used on the data-URL payload. -/
def splitComma (l : List Char) : List (List Char) :=
  splitOnPred (fun c => c == ',') l

/-! ### Payload decoding (`video_data.split(',')[1]` + `b64decode`)

This is the decode step shared by `upload_video` (app.py lines 158-161)
and `upload_photo` (lines 217-224): index `[1]` of the comma-split raises
`IndexError` when no comma is present; the chosen segment is then base64
decoded. -/

inductive PayloadErr where
  | indexError
  | b64Error (e : B64Err)
deriving DecidableEq, Repr

def b64ToPayload : Except B64Err Bytes → Except PayloadErr Bytes
  | .ok b => .ok b
  | .error e => .error (.b64Error e)

/-- The decode performed by the upload handlers:
`base64.b64decode(data.split(',')[1])`, with `IndexError` when the comma
is absent. -/
def decode_payload (s : String) : Except PayloadErr Bytes :=
  match (splitComma s.data).get? 1 with
  | none => .error .indexError
  | some body => b64ToPayload (pyB64Decode body)

/-! ### File classification (`is_image_file` / `is_video_file`, app.py 22-28)

`filename.lower().endswith(...)` is embedded over the character list of
the string. -/

def str_lower (s : String) : String := ⟨s.data.map Char.toLower⟩

/-- Python `s.endswith(suffix)`. -/
def str_endswith (s suffix : String) : Bool := suffix.data.isSuffixOf s.data

def is_image_file (filename : String) : Bool :=
  str_endswith (str_lower filename) ".jpg" || str_endswith (str_lower filename) ".jpeg" ||
  str_endswith (str_lower filename) ".png" || str_endswith (str_lower filename) ".gif" ||
  str_endswith (str_lower filename) ".webp"

def is_video_file (filename : String) : Bool :=
  str_endswith (str_lower filename) ".mp4" || str_endswith (str_lower filename) ".webm" ||
  str_endswith (str_lower filename) ".ogg"

/-! ### The media store

The flat storage directory, as touched by the upload handlers: an
association list from committed filename to file content.  A write
(`open(path,'wb')` + `write`) replaces any previous entry. -/

def store_put (fs : List (String × Bytes)) (name : String) (content : Bytes) :
    List (String × Bytes) :=
  (name, content) :: fs.filter (fun e => e.1 != name)

def store_get (fs : List (String × Bytes)) (name : String) : Option Bytes :=
  (fs.find? (fun e => e.1 == name)).map Prod.snd

/-! ### Video transcoder (`convert_webm_to_mp4`, app.py 30-57)

`subprocess.run` is an external effect; its outcome (whether the launch
raised, the exit status, and what bytes the tool left at the output
path) is an explicit environment.  The Python function catches every
exception and returns a boolean, which the embedding reflects by being
a total function into `Bool`. -/

structure FfmpegEnv where
  /-- whether `subprocess.run` does not raise (e.g. `ffmpeg` is on the path) -/
  launches : Bool
  /-- exit status of the process when it launches -/
  returncode : Nat
  /-- whether the tool created/wrote the output file at `mp4_path` -/
  wroteOutput : Bool
  /-- the bytes the tool left at `mp4_path` when it wrote it -/
  outputBytes : Bytes
deriving DecidableEq, Repr

def convert_webm_to_mp4 (env : FfmpegEnv) : Bool :=
  env.launches && env.returncode == 0

/-! ### `upload_video` (app.py 149-207)

State: the store, the temp artifact (`tempfile.mkstemp` file), and the
ordered trace of filesystem actions performed by the handler.  The
environment fixes the outcome of each external effect: the temp-file
write, the ffmpeg invocation, and the fallback store write (when a
write fails, Python's `open(...,'wb')` has already created the file and
a prefix of the bytes may have been written; the `except` handler then
removes only the temp artifact). -/

structure VideoEnv where
  ffmpeg : FfmpegEnv
  /-- the write of the decoded bytes to the temp artifact completes -/
  tempWriteOk : Bool
  /-- the fallback write of the decoded bytes to `{base}.webm` completes -/
  storeWriteOk : Bool
  /-- number of bytes written before a failing store write raises -/
  storeWritten : Nat
  /-- the value of `datetime.now().strftime` for this call -/
  timestamp : String
deriving DecidableEq, Repr

inductive FsAction where
  | createTemp
  | writeTemp
  /-- ffmpeg writing its output file at the final name inside the store -/
  | ffmpegOut (name : String)
  /-- the handler writing a file at the final name inside the store -/
  | writeStore (name : String)
  | removeTemp
deriving DecidableEq, Repr

/-- Actions that touch the storage directory (as opposed to the temp
artifact, which lives outside it). -/
def FsAction.isStoreWrite : FsAction → Bool
  | .ffmpegOut _ => true
  | .writeStore _ => true
  | _ => false

structure VState where
  store : List (String × Bytes)
  /-- content of the temp artifact, `none` when the file does not exist -/
  temp : Option Bytes
  trace : List FsAction
deriving DecidableEq, Repr

structure VResp where
  success : Bool
  filename : Option String
  /-- the `'warning': 'MP4 conversion failed, saved as WebM'` field is present -/
  warning : Bool
deriving DecidableEq, Repr

def upload_video (env : VideoEnv) (store0 : List (String × Bytes)) (payload : Option String) :
    VState × VResp :=
  match payload with
  | none =>
      -- `data['video']` raised; the except handler finds no temp artifact
      (⟨store0, none, []⟩, ⟨false, none, false⟩)
  | some s =>
      match decode_payload s with
      | .error _ =>
          -- IndexError / binascii.Error before the temp artifact is created
          (⟨store0, none, []⟩, ⟨false, none, false⟩)
      | .ok videoBinary =>
          if env.tempWriteOk then
            let mp4Name := "video_" ++ env.timestamp ++ ".mp4"
            let storeF := if env.ffmpeg.wroteOutput
              then store_put store0 mp4Name env.ffmpeg.outputBytes else store0
            let traceF := if env.ffmpeg.wroteOutput
              then [FsAction.createTemp, FsAction.writeTemp, FsAction.ffmpegOut mp4Name]
              else [FsAction.createTemp, FsAction.writeTemp]
            if convert_webm_to_mp4 env.ffmpeg then
              (⟨storeF, none, traceF ++ [FsAction.removeTemp]⟩, ⟨true, some mp4Name, false⟩)
            else
              let webmName := "video_" ++ env.timestamp ++ ".webm"
              if env.storeWriteOk then
                (⟨store_put storeF webmName videoBinary, none,
                   traceF ++ [FsAction.writeStore webmName, FsAction.removeTemp]⟩,
                 ⟨true, some webmName, true⟩)
              else
                -- the fallback write raises midway: the file holds the
                -- written prefix; the except handler removes the temp only
                (⟨store_put storeF webmName (videoBinary.take env.storeWritten), none,
                   traceF ++ [FsAction.writeStore webmName, FsAction.removeTemp]⟩,
                 ⟨false, none, false⟩)
          else
            -- the temp write raises; the except handler removes the temp
            (⟨store0, none, [FsAction.createTemp, FsAction.writeTemp, FsAction.removeTemp]⟩,
             ⟨false, none, false⟩)

/-! ### `process_image` / `upload_photo` (app.py 59-85, 209-238)

The PIL pipeline (decode, alpha-composite, thumbnail, re-encode) is an
external effect: `pil` is its result on the decoded bytes, `none` when
any step raised (the Python function catches every exception and
returns `None`). -/

structure PhotoEnv where
  /-- result of the PIL decode/re-encode on the decoded bytes
  (`none` = processing raised, e.g. undecodable image data) -/
  pil : Option Bytes
  /-- the write of the final bytes to `photo_{ts}.jpg` completes -/
  storeWriteOk : Bool
  /-- number of bytes written before a failing store write raises -/
  storeWritten : Nat
  timestamp : String
deriving DecidableEq, Repr

def process_image (env : PhotoEnv) (imageData : List Char) : Option Bytes :=
  match pyB64Decode imageData with
  | .error _ => none
  | .ok _ => env.pil

/-- The bytes `upload_photo` persists: the processed image, or on
processing failure the raw decoded bytes (`none` when the fallback
decode itself raises). -/
def photo_final_bytes (env : PhotoEnv) (body : List Char) : Option Bytes :=
  match process_image env body with
  | some p => some p
  | none => (pyB64Decode body).toOption

structure PResp where
  success : Bool
  filename : Option String
deriving DecidableEq, Repr

def upload_photo (env : PhotoEnv) (store0 : List (String × Bytes)) (payload : Option String) :
    List (String × Bytes) × PResp :=
  match payload with
  | none => (store0, ⟨false, none⟩)
  | some s =>
      match (splitComma s.data).get? 1 with
      | none => (store0, ⟨false, none⟩)
      | some body =>
          match photo_final_bytes env body with
          | none => (store0, ⟨false, none⟩)
          | some bytes =>
              let name := "photo_" ++ env.timestamp ++ ".jpg"
              if env.storeWriteOk then
                (store_put store0 name bytes, ⟨true, some name⟩)
              else
                (store_put store0 name (bytes.take env.storeWritten), ⟨false, none⟩)

/-! ### Gallery enumeration and pagination (`index`, app.py 87-142)

The handler scans the storage directory, keeps entries with a
recognized extension, tags each with its kind and modification time,
sorts by modification time descending, and computes the page slice.
The directory scan result is the input list `entries` of
(filename, mtime) pairs; the pagination block is the pure function
`paginate`. -/

inductive MediaKind where
  | image
  | video
deriving DecidableEq, Repr

structure MediaItem where
  filename : String
  kind : MediaKind
  timestamp : Int
deriving DecidableEq, Repr

/-- The scan/classify/sort part of `index` (app.py 94-109). -/
def enumerate_media (entries : List (String × Int)) : List MediaItem :=
  List.insertionSort (fun a b : MediaItem => b.timestamp ≤ a.timestamp)
    ((entries.filter (fun e => is_video_file e.1 || is_image_file e.1)).map
      (fun e => ⟨e.1, if is_image_file e.1 then MediaKind.image else MediaKind.video, e.2⟩))

structure PagInfo where
  current_page : Int
  total_pages : Nat
  has_prev : Bool
  has_next : Bool
  prev_page : Option Int
  next_page : Option Int
  total_media : Nat
  media_per_page : Nat
  start_idx : Nat
  end_idx : Nat
deriving DecidableEq, Repr

/-- The pagination block of `index` (app.py 111-138): `page` is the raw
query-parameter integer, `per` is `MEDIA_PER_PAGE`. -/
def paginate {α : Type} (files : List α) (page0 : Int) (per : Nat) : List α × PagInfo :=
  let total := files.length
  let total_pages : Nat := if total > 0 then (total + per - 1) / per else 1
  let page : Int :=
    if page0 < 1 then 1
    else if page0 > (total_pages : Int) then (total_pages : Int)
    else page0
  let start_idx : Nat := (page.toNat - 1) * per
  let page_media := (files.drop start_idx).take per
  (page_media,
   { current_page := page
     total_pages := total_pages
     has_prev := decide (1 < page)
     has_next := decide (page < (total_pages : Int))
     prev_page := if 1 < page then some (page - 1) else none
     next_page := if page < (total_pages : Int) then some (page + 1) else none
     total_media := total
     media_per_page := per
     start_idx := if total > 0 then start_idx + 1 else 0
     end_idx := min (start_idx + per) total })

/-! ### `delete_media` (app.py 240-263)

The filesystem seen by `os.path.exists` / `os.remove` is a set of
resolved paths: a path string is normalized by splitting on `/`,
dropping empty and `.` segments and letting `..` pop the previous
segment.  `unquote` and werkzeug's `secure_filename` are embedded for
ASCII input (a posix host: `os.sep` is `/`, `os.path.altsep` is
`None`). -/

/-- Python `urllib.parse.unquote` on ASCII input: `%XX` hex escapes decode to
the corresponding character, a `%` not followed by two hex digits is
kept literally. -/
def hexVal (c : Char) : Option Nat :=
  if '0' ≤ c ∧ c ≤ '9' then some (c.toNat - 48)
  else if 'A' ≤ c ∧ c ≤ 'F' then some (c.toNat - 55)
  else if 'a' ≤ c ∧ c ≤ 'f' then some (c.toNat - 87)
  else none

def unquoteChars : List Char → List Char
  | '%' :: a :: b :: rest =>
      match hexVal a, hexVal b with
      | some x, some y => Char.ofNat (16 * x + y) :: unquoteChars rest
      | _, _ => '%' :: unquoteChars (a :: b :: rest)
  | c :: rest => c :: unquoteChars rest
  | [] => []

def unquote (s : String) : String := ⟨unquoteChars s.data⟩

/-- Python whitespace, as split on by `str.split()` with no argument. -/
def pyIsSpace (c : Char) : Bool :=
  c == ' ' || c == '\t' || c == '\n' || c == '\r' || c == '\x0b' || c == '\x0c'

/-- characters kept by werkzeug's `_filename_ascii_strip_re` -/
def allowed_fname_char (c : Char) : Bool :=
  ('A' ≤ c && c ≤ 'Z') || ('a' ≤ c && c ≤ 'z') || ('0' ≤ c && c ≤ '9') ||
  c == '_' || c == '.' || c == '-'

def joinUnderscore : List (List Char) → List Char
  | [] => []
  | [w] => w
  | w :: ws => w ++ '_' :: joinUnderscore ws

def stripDotUnd (l : List Char) : List Char :=
  ((l.dropWhile (fun c => c == '.' || c == '_')).reverse.dropWhile
    (fun c => c == '.' || c == '_')).reverse

/-- werkzeug `secure_filename` on ASCII input (posix): replace `os.sep`
by a space, split on whitespace and rejoin with `_`, drop characters
outside `[A-Za-z0-9_.-]`, and strip leading/trailing `.` and `_`. -/
def secure_filename (s : String) : String :=
  let replaced := s.data.map (fun c => if c == '/' then ' ' else c)
  let words := (splitOnPred pyIsSpace replaced).filter (fun w => w ≠ [])
  ⟨stripDotUnd ((joinUnderscore words).filter allowed_fname_char)⟩

def upload_folder : String := "static/videos"

/-- Python `os.path.join` (posix): an absolute second argument discards the
first. -/
def path_join (d f : String) : String :=
  if f.data.headD ' ' == '/' then f else d ++ "/" ++ f

/-- A resolved path: absolute flag plus normalized segments. -/
abbrev RPath := Bool × List (List Char)

def normSegs (segs : List (List Char)) : List (List Char) :=
  segs.foldl
    (fun acc s =>
      if s = [] || s = ['.'] then acc
      else if s = ['.', '.'] then acc.dropLast
      else acc ++ [s]) []

def resolve_path (p : String) : RPath :=
  (p.data.headD ' ' == '/', normSegs (splitOnPred (fun c => c == '/') p.data))

/-- The filesystem as seen by `delete_media`: the set of resolved paths
of existing files. -/
abbrev DFs := List RPath

def p_exists (fs : DFs) (p : String) : Bool := fs.contains (resolve_path p)

def p_remove (fs : DFs) (p : String) : DFs := fs.erase (resolve_path p)

inductive DelResult where
  | ok
  | notFound
deriving DecidableEq, Repr

def delete_media (fs : DFs) (rawName : String) : DFs × DelResult :=
  let filename := unquote rawName
  let filepath := path_join upload_folder filename
  if p_exists fs filepath then (p_remove fs filepath, .ok)
  else
    let securepath := path_join upload_folder (secure_filename filename)
    if p_exists fs securepath then (p_remove fs securepath, .ok)
    else (fs, .notFound)

/-! ### The trace property behind claim C4 -/

/-- Every filesystem action that follows a store-directory write is
either another store-directory write or the removal of the temp
artifact (which lives outside the store). -/
def postStoreOk : List FsAction → Bool
  | [] => true
  | a :: rest =>
      (if a.isStoreWrite then
        rest.all (fun b => b.isStoreWrite || b == FsAction.removeTemp)
      else true)
      && postStoreOk rest

/-! ### Spec-side pagination formulas (for claim C8) -/

/-- Python model: `ceil(count / pageSize)` with minimum 1, the spec's
`totalPages`. -/
def total_pages_spec (count per : Nat) : Nat := max 1 ((count + per - 1) / per)

/-- The spec's clamp of the requested page into `[1, totalPages]`. -/
def clamp_page (page0 : Int) (tp : Nat) : Int :=
  if page0 < 1 then 1 else if page0 > (tp : Int) then (tp : Int) else page0

end MediaApp

namespace MediaApp

theorem store_get_put (fs : List (String × Bytes)) (n : String) (b : Bytes) :
    store_get (store_put fs n b) n = some b := by
  simp [store_get, store_put]

theorem str_endswith_append (s t : String) : str_endswith (s ++ t) t = true := by
  simp only [str_endswith, String.data_append, List.isSuffixOf_iff_suffix]
  exact List.suffix_append s.data t.data

/-- C2: for every payload and every outcome of the external effects,
after `upload_video` returns — transcode success, WebM fallback, or any
exception branch — the temporary artifact created during the call no
longer exists. -/
theorem upload_video_temp_always_removed (env : VideoEnv)
    (store0 : List (String × Bytes)) (payload : Option String) :
    ((upload_video env store0 payload).1).temp = none := by
  unfold upload_video
  repeat' split
  all_goals rfl

/-- C4 counterexample: with a well-behaved environment (ffmpeg succeeds)
and a valid payload, the last filesystem action `upload_video` performs
is the removal of the temp artifact, not the commit of the finished
file at its final name — so commit is not the last filesystem action of
the call, contradicting the claim as stated. -/
theorem upload_video_commit_not_last_action :
    ((upload_video ⟨⟨true, 0, true, [7]⟩, true, true, 0, "T"⟩ [] (some "a,AAAA")).1).trace =
      [FsAction.createTemp, FsAction.writeTemp, FsAction.ffmpegOut "video_T.mp4",
       FsAction.removeTemp] ∧
    (((upload_video ⟨⟨true, 0, true, [7]⟩, true, true, 0, "T"⟩ [] (some "a,AAAA")).1).trace.getLast?
      = some FsAction.removeTemp) ∧
    FsAction.removeTemp.isStoreWrite = false := by
  decide

/-- C4 (amended): the commit is the last action touching the storage
directory: in every branch of `upload_video`, every filesystem action
performed after a store-directory write is either another
store-directory write or the removal of the temp artifact, which lives
outside the store. (The final store write is nevertheless performed in
place at the final name, not via an atomic rename.) -/
theorem upload_video_store_writes_before_temp_removal (env : VideoEnv)
    (store0 : List (String × Bytes)) (payload : Option String) :
    postStoreOk ((upload_video env store0 payload).1).trace = true := by
  unfold upload_video
  repeat' split
  all_goals rfl

/-- C6: whenever the transcoder reports failure (nonzero exit status or
process-launch failure — it returns a boolean and never raises) and the
fallback write completes, `upload_video` still returns success together
with the warning, and the committed file has extension `.webm` with
content byte-identical to the decoded input bytes. -/
theorem upload_video_webm_fallback (env : VideoEnv) (store0 : List (String × Bytes))
    (s : String) (bin : Bytes)
    (hdec : decode_payload s = .ok bin)
    (htemp : env.tempWriteOk = true)
    (hconv : convert_webm_to_mp4 env.ffmpeg = false)
    (hstore : env.storeWriteOk = true) :
    (upload_video env store0 (some s)).2.success = true ∧
    (upload_video env store0 (some s)).2.warning = true ∧
    (upload_video env store0 (some s)).2.filename
      = some ("video_" ++ env.timestamp ++ ".webm") ∧
    str_endswith ("video_" ++ env.timestamp ++ ".webm") ".webm" = true ∧
    store_get ((upload_video env store0 (some s)).1).store
      ("video_" ++ env.timestamp ++ ".webm") = some bin := by
  have h : upload_video env store0 (some s) =
      (⟨store_put (if env.ffmpeg.wroteOutput
          then store_put store0 ("video_" ++ env.timestamp ++ ".mp4") env.ffmpeg.outputBytes
          else store0) ("video_" ++ env.timestamp ++ ".webm") bin, none,
        (if env.ffmpeg.wroteOutput
          then [FsAction.createTemp, FsAction.writeTemp,
                FsAction.ffmpegOut ("video_" ++ env.timestamp ++ ".mp4")]
          else [FsAction.createTemp, FsAction.writeTemp])
          ++ [FsAction.writeStore ("video_" ++ env.timestamp ++ ".webm"),
              FsAction.removeTemp]⟩,
       ⟨true, some ("video_" ++ env.timestamp ++ ".webm"), true⟩) := by
    unfold upload_video
    dsimp only
    rw [hdec, htemp, hconv, hstore]
    rfl
  rw [h]
  refine ⟨rfl, rfl, rfl, str_endswith_append ("video_" ++ env.timestamp) ".webm", ?_⟩
  exact store_get_put _ _ _

/-- Witness for C6 at a concrete input: ffmpeg fails to launch, the
payload decodes to three zero bytes, and the call succeeds with the
warning, committing those bytes at `video_T.webm`. -/
theorem upload_video_webm_fallback_witness :
    (upload_video ⟨⟨false, 1, false, []⟩, true, true, 0, "T"⟩ [] (some "a,AAAA")).2.success = true ∧
    (upload_video ⟨⟨false, 1, false, []⟩, true, true, 0, "T"⟩ [] (some "a,AAAA")).2.warning = true ∧
    (upload_video ⟨⟨false, 1, false, []⟩, true, true, 0, "T"⟩ [] (some "a,AAAA")).2.filename
      = some ("video_" ++ "T" ++ ".webm") ∧
    str_endswith ("video_" ++ "T" ++ ".webm") ".webm" = true ∧
    store_get ((upload_video ⟨⟨false, 1, false, []⟩, true, true, 0, "T"⟩ [] (some "a,AAAA")).1).store
      ("video_" ++ "T" ++ ".webm") = some [0, 0, 0] :=
  upload_video_webm_fallback ⟨⟨false, 1, false, []⟩, true, true, 0, "T"⟩ [] "a,AAAA" [0, 0, 0]
    (by decide) rfl rfl rfl

/-- C7: when the base64 body decodes but the image normalizer fails
(`process_image` returns `None`) and the store write completes,
`upload_photo` returns success and persists the raw decoded bytes
verbatim under a name ending in `.jpg`. -/
theorem upload_photo_raw_fallback (env : PhotoEnv) (store0 : List (String × Bytes))
    (s : String) (body : List Char) (bin : Bytes)
    (hseg : (splitComma s.data).get? 1 = some body)
    (hdec : pyB64Decode body = .ok bin)
    (hpil : env.pil = none)
    (hstore : env.storeWriteOk = true) :
    (upload_photo env store0 (some s)).2.success = true ∧
    (upload_photo env store0 (some s)).2.filename
      = some ("photo_" ++ env.timestamp ++ ".jpg") ∧
    str_endswith ("photo_" ++ env.timestamp ++ ".jpg") ".jpg" = true ∧
    store_get (upload_photo env store0 (some s)).1 ("photo_" ++ env.timestamp ++ ".jpg")
      = some bin := by
  have hfinal : photo_final_bytes env body = some bin := by
    unfold photo_final_bytes process_image
    rw [hdec, hpil]
    rfl
  have h : upload_photo env store0 (some s) =
      (store_put store0 ("photo_" ++ env.timestamp ++ ".jpg") bin,
       ⟨true, some ("photo_" ++ env.timestamp ++ ".jpg")⟩) := by
    unfold upload_photo
    dsimp only
    rw [hseg]
    dsimp only
    rw [hfinal, hstore]
    rfl
  rw [h]
  exact ⟨rfl, rfl, str_endswith_append ("photo_" ++ env.timestamp) ".jpg",
    store_get_put _ _ _⟩

/-- Witness for C7 at a concrete input: PIL cannot decode the bytes,
and the call succeeds, persisting the decoded bytes `[0,0,0]` verbatim
at `photo_T.jpg`. -/
theorem upload_photo_raw_fallback_witness :
    (upload_photo ⟨none, true, 0, "T"⟩ [] (some "a,AAAA")).2.success = true ∧
    (upload_photo ⟨none, true, 0, "T"⟩ [] (some "a,AAAA")).2.filename
      = some ("photo_" ++ "T" ++ ".jpg") ∧
    str_endswith ("photo_" ++ "T" ++ ".jpg") ".jpg" = true ∧
    store_get (upload_photo ⟨none, true, 0, "T"⟩ [] (some "a,AAAA")).1
      ("photo_" ++ "T" ++ ".jpg") = some [0, 0, 0] :=
  upload_photo_raw_fallback ⟨none, true, 0, "T"⟩ [] "a,AAAA" "AAAA".data [0, 0, 0]
    (by decide) (by decide) rfl rfl

/-- C3 counterexample: a store write that fails midway (here after one
byte) leaves a partially written file behind in the store, while the
call reports failure — contradicting the claim that no file, in
particular no partially written file, is left behind. -/
theorem upload_photo_partial_file_left :
    (upload_photo ⟨none, false, 1, "T"⟩ [] (some "a,AAAA")).2.success = false ∧
    store_get (upload_photo ⟨none, false, 1, "T"⟩ [] (some "a,AAAA")).1 "photo_T.jpg"
      = some [0] ∧
    (upload_photo ⟨none, false, 1, "T"⟩ [] (some "a,AAAA")).1 ≠ [] := by
  decide

/-- C3 (amended): if the final write of the committed file to the store
cannot complete, both `IngestVideo` and `IngestPhoto` fail the whole
call (success=false), but the partially written file remains in the
store at the final name — the exception handlers do not remove it. -/
theorem store_write_failure_fails_call_but_leaves_partial
    (penv : PhotoEnv) (pstore : List (String × Bytes)) (ps : String)
    (body : List Char) (pbytes : Bytes)
    (venv : VideoEnv) (vstore : List (String × Bytes)) (vs : String) (vbytes : Bytes)
    (hpseg : (splitComma ps.data).get? 1 = some body)
    (hpbytes : photo_final_bytes penv body = some pbytes)
    (hpfail : penv.storeWriteOk = false)
    (hvdec : decode_payload vs = .ok vbytes)
    (hvtemp : venv.tempWriteOk = true)
    (hvconv : convert_webm_to_mp4 venv.ffmpeg = false)
    (hvfail : venv.storeWriteOk = false) :
    ((upload_photo penv pstore (some ps)).2.success = false ∧
     store_get (upload_photo penv pstore (some ps)).1 ("photo_" ++ penv.timestamp ++ ".jpg")
       = some (pbytes.take penv.storeWritten)) ∧
    ((upload_video venv vstore (some vs)).2.success = false ∧
     store_get ((upload_video venv vstore (some vs)).1).store
       ("video_" ++ venv.timestamp ++ ".webm")
       = some (vbytes.take venv.storeWritten)) := by
  have hp : upload_photo penv pstore (some ps) =
      (store_put pstore ("photo_" ++ penv.timestamp ++ ".jpg")
        (pbytes.take penv.storeWritten), ⟨false, none⟩) := by
    unfold upload_photo
    dsimp only
    rw [hpseg]
    dsimp only
    rw [hpbytes, hpfail]
    rfl
  have hv : (upload_video venv vstore (some vs)).2.success = false ∧
      ((upload_video venv vstore (some vs)).1).store =
        store_put (if venv.ffmpeg.wroteOutput
            then store_put vstore ("video_" ++ venv.timestamp ++ ".mp4") venv.ffmpeg.outputBytes
            else vstore)
          ("video_" ++ venv.timestamp ++ ".webm") (vbytes.take venv.storeWritten) := by
    unfold upload_video
    dsimp only
    rw [hvdec, hvtemp, hvconv, hvfail]
    exact ⟨rfl, rfl⟩
  refine ⟨⟨by rw [hp], by rw [hp]; exact store_get_put _ _ _⟩, hv.1, ?_⟩
  rw [hv.2]
  exact store_get_put _ _ _

/-- Witness for the amended C3 at concrete inputs: both a failing photo
write and a failing video fallback write report failure and leave the
one-byte prefix behind. -/
theorem store_write_failure_witness :
    ((upload_photo ⟨none, false, 1, "W"⟩ [] (some "a,AAAA")).2.success = false ∧
     store_get (upload_photo ⟨none, false, 1, "W"⟩ [] (some "a,AAAA")).1
       ("photo_" ++ "W" ++ ".jpg") = some ([0, 0, 0].take 1)) ∧
    ((upload_video ⟨⟨false, 1, false, []⟩, true, false, 1, "W"⟩ [] (some "a,AAAA")).2.success
       = false ∧
     store_get ((upload_video ⟨⟨false, 1, false, []⟩, true, false, 1, "W"⟩ []
         (some "a,AAAA")).1).store
       ("video_" ++ "W" ++ ".webm") = some ([0, 0, 0].take 1)) :=
  store_write_failure_fails_call_but_leaves_partial
    ⟨none, false, 1, "W"⟩ [] "a,AAAA" "AAAA".data [0, 0, 0]
    ⟨⟨false, 1, false, []⟩, true, false, 1, "W"⟩ [] "a,AAAA" [0, 0, 0]
    (by decide) (by decide) rfl (by decide) rfl rfl rfl

/-- C1 counterexample: `delete_media` performs no path-traversal
rejection.  With `x.jpg` present in the storage directory, deleting the
name `../x.jpg` succeeds and removes it (the store is affected, nothing
is rejected); and with `static/x.jpg` present outside the storage
directory, deleting `../x.jpg` removes that file — a file that is not a
direct child of the storage directory. -/
theorem delete_media_no_traversal_rejection :
    delete_media [resolve_path "static/videos/x.jpg"] "../x.jpg" = ([], DelResult.ok) ∧
    ([] : DFs) ≠ [resolve_path "static/videos/x.jpg"] ∧
    delete_media [resolve_path "static/x.jpg"] "../x.jpg" = ([], DelResult.ok) := by
  decide

/-- C1 (amended): `Delete` does not normalize or reject traversal
names.  The unquoted name is joined directly onto the storage
directory; whenever a file exists at the resolved joined path — which
for names containing `../` may lie outside the storage directory — it
is removed and success is returned. -/
theorem delete_media_removes_raw_path (fs : DFs) (rawName : String)
    (h : p_exists fs (path_join upload_folder (unquote rawName)) = true) :
    delete_media fs rawName =
      (p_remove fs (path_join upload_folder (unquote rawName)), DelResult.ok) := by
  unfold delete_media
  dsimp only
  rw [h]
  rfl

/-- Witness for the amended C1: the name `../x.jpg` removes the file
`static/x.jpg`, which is outside the storage directory
`static/videos`. -/
theorem delete_media_removes_raw_path_witness :
    delete_media [resolve_path "static/x.jpg"] "../x.jpg" = ([], DelResult.ok) :=
  delete_media_removes_raw_path [resolve_path "static/x.jpg"] "../x.jpg" (by decide)

/-- C10: when no file exists at the directly joined path,
`delete_media` retries with the `secure_filename`-sanitized name: if a
file with the sanitized name exists it is removed and success returned;
`NotFound` results only when both the raw and the sanitized paths are
absent. -/
theorem delete_media_secure_fallback (fs : DFs) (rawName : String)
    (hraw : p_exists fs (path_join upload_folder (unquote rawName)) = false) :
    (p_exists fs (path_join upload_folder (secure_filename (unquote rawName))) = true →
       delete_media fs rawName =
         (p_remove fs (path_join upload_folder (secure_filename (unquote rawName))),
          DelResult.ok)) ∧
    (p_exists fs (path_join upload_folder (secure_filename (unquote rawName))) = false →
       delete_media fs rawName = (fs, DelResult.notFound)) := by
  constructor
  · intro hsec
    unfold delete_media
    dsimp only
    rw [hraw, hsec]
    rfl
  · intro hsec
    unfold delete_media
    dsimp only
    rw [hraw, hsec]
    rfl

/-- Witness for C10: deleting the name `../x.jpg` succeeds by removing
the in-store file `x.jpg` (the sanitized name), the raw joined path
being absent. -/
theorem delete_media_secure_fallback_witness :
    delete_media [resolve_path "static/videos/x.jpg"] "../x.jpg" =
      (p_remove [resolve_path "static/videos/x.jpg"]
        (path_join upload_folder (secure_filename (unquote "../x.jpg"))), DelResult.ok) :=
  (delete_media_secure_fallback [resolve_path "static/videos/x.jpg"] "../x.jpg"
    (by decide)).1 (by decide)

theorem splitOnPred_ne_nil (p : Char → Bool) (l : List Char) : splitOnPred p l ≠ [] := by
  cases l with
  | nil => simp [splitOnPred]
  | cons c rest =>
      unfold splitOnPred
      split
      · simp
      · cases h : splitOnPred p rest <;> simp

theorem splitOnPred_head (p : Char → Bool) (l : List Char) :
    (splitOnPred p l).head? = some (l.takeWhile (fun c => !p c)) := by
  induction l with
  | nil => rfl
  | cons c rest ih =>
      unfold splitOnPred
      by_cases h : p c = true
      · simp [h]
      · cases hs : splitOnPred p rest with
        | nil => exact absurd hs (splitOnPred_ne_nil p rest)
        | cons s ss =>
            rw [hs] at ih
            simp only [List.head?_cons, Option.some.injEq] at ih
            simp [h, List.takeWhile_cons, ih]

/-- The element picked by `split(sep)[1]`: present exactly when a
separator occurs, and then equal to the characters strictly between the
first separator and the next one. -/
theorem splitOnPred_get_one (p : Char → Bool) (l : List Char) :
    (splitOnPred p l).get? 1 =
      if l.any p then
        some (((l.dropWhile (fun c => !p c)).drop 1).takeWhile (fun c => !p c))
      else none := by
  induction l with
  | nil => rfl
  | cons c rest ih =>
      cases hs : splitOnPred p rest with
      | nil => exact absurd hs (splitOnPred_ne_nil p rest)
      | cons s ss =>
          cases hpc : p c with
          | true =>
              have hh := splitOnPred_head p rest
              rw [hs] at hh
              simp only [List.head?_cons, Option.some.injEq] at hh
              simp [splitOnPred, hpc, hs, hh]
          | false =>
              rw [hs] at ih
              simp only [splitOnPred, hpc, hs]
              simpa [hpc] using ih

/-- C5 counterexample: on the input `"a,AAAA,BBBB"` the decoder
succeeds and returns the decode of only `"AAAA"`, the segment between
the first two commas, while the body after the separator is
`"AAAA,BBBB"`, whose base64 decode (commas are discarded by
`b64decode`) is a different, longer byte sequence — so the decoder
neither fails on this body nor returns the decoded bytes of the body
after the separator. -/
theorem decode_payload_multi_comma :
    decode_payload "a,AAAA,BBBB" = .ok [0, 0, 0] ∧
    pyB64Decode (("a,AAAA,BBBB".data.dropWhile (fun c => c != ',')).drop 1)
      = .ok [0, 0, 0, 4, 16, 65] ∧
    ([0, 0, 0] : Bytes) ≠ [0, 0, 0, 4, 16, 65] := by
  decide

/-- C5 (amended): decoding fails exactly when the comma separator is
absent (`IndexError`) or the segment between the first comma and the
following comma (or end of string) is not accepted by `b64decode`; on
success it returns the decoded bytes of that segment — characters after
a second comma are ignored.  The decoder is a pure function. -/
theorem decode_payload_characterization (s : String) :
    (s.data.any (fun c => c == ',') = false →
       decode_payload s = .error .indexError) ∧
    (s.data.any (fun c => c == ',') = true →
       decode_payload s =
         b64ToPayload (pyB64Decode
           (((s.data.dropWhile (fun c => c != ',')).drop 1).takeWhile
             (fun c => c != ',')))) := by
  constructor
  · intro h
    unfold decode_payload splitComma
    rw [splitOnPred_get_one, if_neg (by simp [h])]
  · intro h
    unfold decode_payload splitComma
    rw [splitOnPred_get_one, if_pos (by simp [h])]
    rfl

/-- Witness for the amended C5 at a concrete input with a comma. -/
theorem decode_payload_characterization_witness :
    decode_payload "a,AAAA" =
      b64ToPayload (pyB64Decode
        ((("a,AAAA".data.dropWhile (fun c => c != ',')).drop 1).takeWhile
          (fun c => c != ','))) :=
  (decode_payload_characterization "a,AAAA").2 (by decide)

theorem total_pages_code_eq (count per : Nat) (hper : 0 < per) :
    (if count > 0 then (count + per - 1) / per else 1) = total_pages_spec count per := by
  unfold total_pages_spec
  rcases Nat.eq_zero_or_pos count with h | h
  · subst h
    rw [if_neg (by omega)]
    rw [Nat.div_eq_of_lt (by omega)]
    omega
  · rw [if_pos (by omega)]
    have h1 : 1 ≤ (count + per - 1) / per := (Nat.one_le_div_iff hper).mpr (by omega)
    omega

theorem clamp_page_bounds (page0 : Int) (tp : Nat) (h : 1 ≤ tp) :
    1 ≤ clamp_page page0 tp ∧ clamp_page page0 tp ≤ (tp : Int) := by
  unfold clamp_page
  split_ifs <;> omega

theorem total_pages_spec_pos (count per : Nat) : 1 ≤ total_pages_spec count per :=
  le_max_left 1 _

/-- C8: for every item list, page number and positive page size, the
pagination block computes `totalPages = ceil(count/pageSize)` with
minimum 1, clamps the requested page into `[1, totalPages]`, returns
the slice `[(page-1)*pageSize, page*pageSize)` clipped to the available
range, and 1-based `rangeStart`/`rangeEnd` that are both 0 when the
count is 0; in particular, 65 items with page size 30 at page 3 yield
the five items 61-65 with `totalPages = 3`, `hasNext = false` and
`hasPrev = true`. -/
theorem paginate_spec :
    (∀ (α : Type) (files : List α) (page0 : Int) (per : Nat), 0 < per →
      (paginate files page0 per).2.total_pages = total_pages_spec files.length per ∧
      (paginate files page0 per).2.current_page
        = clamp_page page0 (total_pages_spec files.length per) ∧
      1 ≤ (paginate files page0 per).2.current_page ∧
      (paginate files page0 per).2.current_page
        ≤ ((paginate files page0 per).2.total_pages : Int) ∧
      (paginate files page0 per).1 =
        (files.drop (((paginate files page0 per).2.current_page.toNat - 1) * per)).take per ∧
      (paginate files page0 per).2.start_idx =
        (if files.length = 0 then 0
         else ((paginate files page0 per).2.current_page.toNat - 1) * per + 1) ∧
      (paginate files page0 per).2.end_idx =
        min ((paginate files page0 per).2.current_page.toNat * per) files.length ∧
      (paginate files page0 per).2.has_prev
        = decide (1 < (paginate files page0 per).2.current_page) ∧
      (paginate files page0 per).2.has_next
        = decide ((paginate files page0 per).2.current_page
            < ((paginate files page0 per).2.total_pages : Int))) ∧
    ((paginate (List.range 65) 3 30).1 = [60, 61, 62, 63, 64] ∧
     (paginate (List.range 65) 3 30).2.total_pages = 3 ∧
     (paginate (List.range 65) 3 30).2.has_next = false ∧
     (paginate (List.range 65) 3 30).2.has_prev = true ∧
     (paginate (List.range 65) 3 30).2.start_idx = 61 ∧
     (paginate (List.range 65) 3 30).2.end_idx = 65 ∧
     (paginate (List.range 65) 3 30).2.total_media = 65) := by
  constructor
  · intro α files page0 per hper
    have htp : (paginate files page0 per).2.total_pages
        = total_pages_spec files.length per := by
      show (if files.length > 0 then (files.length + per - 1) / per else 1)
          = total_pages_spec files.length per
      exact total_pages_code_eq files.length per hper
    have hcp : (paginate files page0 per).2.current_page
        = clamp_page page0 (total_pages_spec files.length per) := by
      show clamp_page page0 (if files.length > 0 then (files.length + per - 1) / per else 1)
          = clamp_page page0 (total_pages_spec files.length per)
      rw [total_pages_code_eq files.length per hper]
    obtain ⟨hge, hle⟩ := clamp_page_bounds page0 (total_pages_spec files.length per)
      (total_pages_spec_pos files.length per)
    have hge2 : 1 ≤ (paginate files page0 per).2.current_page := by rw [hcp]; exact hge
    refine ⟨htp, hcp, hge2, ?_, rfl, ?_, ?_, rfl, rfl⟩
    · rw [hcp, htp]; exact hle
    · show (if files.length > 0
            then ((paginate files page0 per).2.current_page.toNat - 1) * per + 1 else 0)
          = (if files.length = 0 then 0
             else ((paginate files page0 per).2.current_page.toNat - 1) * per + 1)
      rcases Nat.eq_zero_or_pos files.length with h | h
      · rw [if_neg (by omega), if_pos h]
      · rw [if_pos h, if_neg (by omega)]
    · have h2 : 1 ≤ (paginate files page0 per).2.current_page.toNat := by
        have := hge2; omega
      show min (((paginate files page0 per).2.current_page.toNat - 1) * per + per)
            files.length
          = min ((paginate files page0 per).2.current_page.toNat * per) files.length
      congr 1
      calc ((paginate files page0 per).2.current_page.toNat - 1) * per + per
          = (((paginate files page0 per).2.current_page.toNat - 1) + 1) * per := by ring
        _ = (paginate files page0 per).2.current_page.toNat * per := by
            rw [Nat.sub_add_cancel h2]
  · decide

/-- Witness for C8 with a concrete list and page size 1. -/
theorem paginate_spec_witness :
    (paginate ([10, 20] : List Nat) 5 1).2.total_pages
      = total_pages_spec ([10, 20] : List Nat).length 1 :=
  (paginate_spec.1 Nat [10, 20] 5 1 (by decide)).1

/-- No filename is both a recognized image and a recognized video: two
suffixes of the same lowered character list are comparable as suffixes,
and no image extension is a suffix of a video extension or vice
versa. -/
theorem not_image_and_video (f : String) :
    ¬(is_image_file f = true ∧ is_video_file f = true) := by
  rintro ⟨hi, hv⟩
  simp only [is_image_file, is_video_file, str_endswith, Bool.or_eq_true,
    List.isSuffixOf_iff_suffix] at hi hv
  rcases hi with ((((h1 | h1) | h1) | h1) | h1) <;> rcases hv with ((h2 | h2) | h2) <;>
    exact (List.suffix_or_suffix_of_suffix h1 h2).elim
      (fun h => absurd h (by decide)) (fun h => absurd h (by decide))

/-- C9: for every directory state, the enumeration keeps exactly the
entries with a recognized extension, classifies recognized image
extensions as `image` and recognized video extensions as `video`, and
orders the result by modification time descending (newest first). -/
theorem enumerate_media_spec (entries : List (String × Int)) :
    List.Perm (enumerate_media entries)
      ((entries.filter (fun e => is_video_file e.1 || is_image_file e.1)).map
        (fun e => ⟨e.1, if is_image_file e.1 then MediaKind.image else MediaKind.video, e.2⟩)) ∧
    List.Sorted (fun a b : MediaItem => b.timestamp ≤ a.timestamp) (enumerate_media entries) ∧
    (∀ item ∈ enumerate_media entries,
      (is_video_file item.filename || is_image_file item.filename) = true ∧
      (item.filename, item.timestamp) ∈ entries ∧
      (is_image_file item.filename = true → item.kind = MediaKind.image) ∧
      (is_video_file item.filename = true → item.kind = MediaKind.video)) ∧
    (∀ name ts, (name, ts) ∈ entries →
      (is_video_file name || is_image_file name) = true →
      (⟨name, if is_image_file name then MediaKind.image else MediaKind.video, ts⟩ : MediaItem)
        ∈ enumerate_media entries) := by
  haveI htot : IsTotal MediaItem (fun a b : MediaItem => b.timestamp ≤ a.timestamp) :=
    ⟨fun a b => Int.le_total b.timestamp a.timestamp⟩
  haveI htr : IsTrans MediaItem (fun a b : MediaItem => b.timestamp ≤ a.timestamp) :=
    ⟨fun _ _ _ hab hbc => le_trans hbc hab⟩
  refine ⟨List.perm_insertionSort _ _, List.sorted_insertionSort _ _, ?_, ?_⟩
  · intro item hmem
    unfold enumerate_media at hmem
    rw [List.mem_insertionSort] at hmem
    obtain ⟨e, he, rfl⟩ := List.mem_map.mp hmem
    obtain ⟨hent, hcond⟩ := List.mem_filter.mp he
    refine ⟨hcond, hent, ?_, ?_⟩
    · intro himg
      simp only [himg, if_true]
    · intro hvid
      by_cases himg : is_image_file e.1 = true
      · exact absurd ⟨himg, hvid⟩ (not_image_and_video e.1)
      · simp only [himg]
        rfl
  · intro name ts hmem hcond
    unfold enumerate_media
    rw [List.mem_insertionSort]
    exact List.mem_map.mpr ⟨(name, ts), List.mem_filter.mpr ⟨hmem, hcond⟩, rfl⟩

/-- Witness for C9: a video file is enumerated (and classified as
video) from a directory also holding an unrecognized entry. -/
theorem enumerate_media_spec_witness :
    (⟨"a.mp4", MediaKind.video, 5⟩ : MediaItem)
      ∈ enumerate_media [("b.txt", 9), ("a.mp4", 5)] :=
  (enumerate_media_spec [("b.txt", 9), ("a.mp4", 5)]).2.2.2 "a.mp4" 5
    (by decide) (by decide)

end MediaApp
